import Mathlib

/-!
Verification development for the chordy firmware (src/firmware/main.py),
a MicroPython BLE chorded-keyboard program. The definitions below are a
shallow embedding of the pure core of that script: the `struct.pack`
byte encodings, the combo lookup table, the debounce step of `main`'s
poll loop, the per-tick report trace, and the connection-set bookkeeping
of `BLEKeyboard`. Bytes are modelled as `Nat` values reduced `% 256`
where the packer truncates; timestamps as `Int` (`utime.ticks_diff` is
modelled as plain subtraction); a `struct.pack` call that would raise is
modelled as `none`.
-/

namespace Chordy

/-- `DEBOUNCE_MS = const(25)` from the source. -/
def DEBOUNCE_MS : Int := 25

/-- `POLL_INTERVAL_MS = const(10)` from the source. -/
def POLL_INTERVAL_MS : Int := 10

/-- One `<H` field of `struct.pack`: an unsigned 16-bit value, little endian. -/
def packU16LE (v : Nat) : List Nat := [v % 256, v / 256 % 256]

/-- `_HID_INFO = struct.pack("<HHBB", 0x0111, 0x0000, 0x01, 0x01)`:
two little-endian u16 fields followed by two u8 fields. -/
def HID_INFO : List Nat :=
  packU16LE 0x0111 ++ packU16LE 0x0000 ++ [0x01 % 256, 0x01 % 256]

/-- `struct.pack("<BB6B", 0x01, modifier, *padded)`: a fixed report id
byte `0x01`, the modifier byte, then exactly six keycode bytes. The
format consumes exactly six values for its `6B` run, so the call raises
(modelled as `none`) when `padded` does not have exactly six entries. -/
def packBB6B (modifier : Nat) (padded : List Nat) : Option (List Nat) :=
  if padded.length = 6 then
    some (0x01 % 256 :: modifier % 256 :: padded.map (fun b => b % 256))
  else none

/-- `BLEKeyboard.key_press` report construction:
`padded = keycodes + [0x00] * (6 - len(keycodes))` followed by
`struct.pack("<BB6B", 0x01, modifier, *padded)`. Note Nat subtraction
`6 - keycodes.length` matches Python, where `[0] * n` is empty for
`n <= 0`. -/
def key_press (modifier : Nat) (keycodes : List Nat) : Option (List Nat) :=
  packBB6B modifier (keycodes ++ List.replicate (6 - keycodes.length) 0x00)

/-- `BLEKeyboard.release_all`:
`struct.pack("<BB6B", 0x01, 0x00, 0, 0, 0, 0, 0, 0)`. -/
def release_all : Option (List Nat) :=
  packBB6B 0x00 [0, 0, 0, 0, 0, 0]

/-- The byte string `release_all` actually sends. -/
def releaseAllReport : List Nat := [0x01, 0x00, 0, 0, 0, 0, 0, 0]

/-- `COMBO_MAP` from the source, with the `KEY_CODES` lookups folded in:
tuples of pressed button indices mapped to `(modifier, [keycodes])`. -/
def COMBO_MAP : List (List Nat × Nat × List Nat) :=
  [ ([0], (0x00, [0x09])),        -- KEY_CODES["F"]
    ([1], (0x00, [0x0D])),        -- KEY_CODES["J"]
    ([2], (0x00, [0x07])),        -- KEY_CODES["D"]
    ([3], (0x00, [0x0E])),        -- KEY_CODES["K"]
    ([4], (0x00, [0x16])),        -- KEY_CODES["S"]
    ([5], (0x00, [0x0F])),        -- KEY_CODES["L"]
    ([0, 1], (0x00, [0x2C])),     -- KEY_CODES["SPACE"]
    ([2, 3], (0x00, [0x28])),     -- KEY_CODES["ENTER"]
    ([4, 5], (0x00, [0x2B])),     -- KEY_CODES["TAB"]
    ([0, 2], (0x02, [0x04])),     -- Shift + KEY_CODES["A"]
    ([1, 3], (0x02, [0x0B])),     -- Shift + KEY_CODES["H"]
    ([0, 5], (0x00, [0x2A])) ]    -- KEY_CODES["BACKSPACE"]

/-- `COMBO_MAP.get(state)`: exact-match dictionary lookup returning
`None` for an unmapped chord. -/
def combo_get (m : List (List Nat × Nat × List Nat)) (k : List Nat) :
    Option (Nat × List Nat) :=
  (m.find? (fun e => e.1 == k)).map (fun e => e.2)

/-- The mutable loop state of `main`: `last_state` (the accepted stable
chord) and `last_change` (timestamp of the last accepted change). -/
structure DebState where
  last_state : List Nat
  last_change : Int
deriving DecidableEq

/-- The debounce decision of one poll tick (main.py lines 244-246):
`if state != last_state and utime.ticks_diff(now, last_change) > DEBOUNCE_MS`
then accept (`last_state = state; last_change = now`) and report the new
chord as an event; otherwise leave the state untouched and emit nothing. -/
def debounceStep (s : DebState) (raw : List Nat) (now : Int) :
    DebState × Option (List Nat) :=
  if raw ≠ s.last_state ∧ now - s.last_change > DEBOUNCE_MS then
    (⟨raw, now⟩, some raw)
  else
    (s, none)

/-- Running the debounce over a list of `(raw, now)` samples, collecting
the emitted chord-changed events. -/
def runDebounce (s : DebState) (samples : List (List Nat × Int)) :
    DebState × List (List Nat) :=
  match samples with
  | [] => (s, [])
  | (raw, now) :: rest =>
    match debounceStep s raw now with
    | (s1, ev) =>
      match runDebounce s1 rest with
      | (s2, evs) => (s2, ev.toList ++ evs)

/-- One full body of `main`'s `while True` loop, parameterised by the
combo map: the debounce decision followed, on an accepted change, by
`keyboard.release_all()` and then, if the chord is mapped,
`keyboard.key_press(modifier, keycodes)`. The result is the new loop
state and the ordered list of reports handed to the transport during the
tick; `none` models an uncaught `struct` error crashing the loop. -/
def tick (cmap : List (List Nat × Nat × List Nat)) (s : DebState)
    (raw : List Nat) (now : Int) : Option (DebState × List (List Nat)) :=
  match debounceStep s raw now with
  | (s1, some chord) =>
    match release_all with
    | none => none
    | some rel =>
      match combo_get cmap chord with
      | some (modifier, keycodes) =>
        match key_press modifier keycodes with
        | some rep => some (s1, [rel, rep])
        | none => none
      | none => some (s1, [rel])
  | (s1, none) => some (s1, [])

/-- Decoding the 8 packed bytes back: first byte is the report id,
second the modifier, the remaining six the keycode slots. -/
def decodeReport (bytes : List Nat) : Option (Nat × Nat × List Nat) :=
  match bytes with
  | rid :: modifier :: rest =>
    if rest.length = 6 then some (rid, modifier, rest) else none
  | _ => none

/-- `self._connections.add(conn_handle)`: Python set add, a no-op when
the handle is already a member. -/
def conn_add (conns : List Nat) (c : Nat) : List Nat :=
  if c ∈ conns then conns else conns ++ [c]

/-- `self._connections.discard(conn_handle)`: Python set discard,
removing the handle when present and silently doing nothing otherwise. -/
def conn_discard (conns : List Nat) (c : Nat) : List Nat :=
  conns.erase c

/-- The two connection lifecycle events `BLEKeyboard._irq` handles. -/
inductive IrqEvent where
  | central_connect (conn : Nat)
  | central_disconnect (conn : Nat)

/-- `BLEKeyboard._irq`: on connect, add the handle to the connection
set; on disconnect, discard it and re-advertise. Returns the new
connection set and whether `_advertise` was called. -/
def irq (conns : List Nat) (ev : IrqEvent) : List Nat × Bool :=
  match ev with
  | .central_connect c => (conn_add conns c, false)
  | .central_disconnect c => (conn_discard conns c, true)

/-- `BLEKeyboard.send_report`: one `gatts_notify` per handle currently
in the connection set, in order; nothing else is touched. The result is
the list of `(conn_handle, report)` notifications emitted. -/
def send_report (conns : List Nat) (report : List Nat) :
    List (Nat × List Nat) :=
  conns.map (fun c => (c, report))

/-- How many times a given `(conn_handle, report)` notification occurs
in a notification trace. -/
def countOccurrences (l : List (Nat × List Nat)) (p : Nat × List Nat) : Nat :=
  (l.filter (fun q => decide (q = p))).length

/-! ## Helper lemmas -/

/-- `release_all` always succeeds and produces the all-zero report. -/
lemma release_all_eq : release_all = some releaseAllReport := by decide

/-- Every entry of the configured `COMBO_MAP` carries exactly one keycode. -/
lemma comboEntryLen : ∀ e ∈ COMBO_MAP, e.2.2.length = 1 := by decide

/-- A successful `combo_get` lookup returns an entry of the map, keyed
exactly by the requested chord. -/
lemma combo_get_mem {m : List (List Nat × Nat × List Nat)} {k : List Nat}
    {v : Nat × List Nat} (h : combo_get m k = some v) : (k, v) ∈ m := by
  unfold combo_get at h
  rw [Option.map_eq_some'] at h
  obtain ⟨e, he, hev⟩ := h
  have hmem := List.mem_of_find?_eq_some he
  have hp := List.find?_some he
  obtain ⟨a, b⟩ := e
  have h1 : a = k := by simpa using hp
  cases hev
  rw [h1] at hmem
  exact hmem

/-- With at most six keycodes the padding fills to exactly six slots and
the pack succeeds. -/
lemma key_press_eq_of_le {modifier : Nat} {ks : List Nat}
    (h : ks.length ≤ 6) :
    key_press modifier ks =
      some (0x01 % 256 :: modifier % 256 ::
        (ks ++ List.replicate (6 - ks.length) 0x00).map (fun b => b % 256)) := by
  unfold key_press packBB6B
  have hlen : (ks ++ List.replicate (6 - ks.length) 0x00).length = 6 := by
    simp only [List.length_append, List.length_replicate]
    omega
  rw [if_pos hlen]

/-- Unfolding `countOccurrences` over a cons cell. -/
lemma countOccurrences_cons (q : Nat × List Nat) (l : List (Nat × List Nat))
    (p : Nat × List Nat) :
    countOccurrences (q :: l) p =
      countOccurrences l p + if q = p then 1 else 0 := by
  unfold countOccurrences
  by_cases h : q = p
  · simp [List.filter_cons, h]
  · simp [List.filter_cons, h]

/-- `send_report` distributes over a cons of the connection set. -/
lemma send_report_cons (a : Nat) (rest : List Nat) (report : List Nat) :
    send_report (a :: rest) report = (a, report) :: send_report rest report :=
  rfl

/-- A peer outside the connection set receives no notification. -/
lemma send_report_count_zero (report : List Nat) (c : Nat) :
    ∀ conns : List Nat, c ∉ conns →
      countOccurrences (send_report conns report) (c, report) = 0 := by
  intro conns
  induction conns with
  | nil => intro _; rfl
  | cons a rest ih =>
    intro h
    rw [send_report_cons, countOccurrences_cons]
    rw [ih (fun hm => h (List.mem_cons_of_mem a hm))]
    rw [if_neg]
    intro he
    exact h (List.mem_cons.2 (Or.inl (congrArg Prod.fst he).symm))

/-- A peer in a duplicate-free connection set receives the notification
exactly once. -/
lemma send_report_count_one (report : List Nat) (c : Nat) :
    ∀ conns : List Nat, conns.Nodup → c ∈ conns →
      countOccurrences (send_report conns report) (c, report) = 1 := by
  intro conns
  induction conns with
  | nil => intro _ hc; cases hc
  | cons a rest ih =>
    intro hnd hc
    rw [List.nodup_cons] at hnd
    rw [send_report_cons, countOccurrences_cons]
    rcases List.mem_cons.1 hc with rfl | hc2
    · rw [send_report_count_zero report c rest hnd.1, if_pos rfl]
    · rw [ih hnd.2 hc2, if_neg]
      intro he
      have hac : a = c := congrArg Prod.fst he
      subst hac
      exact hnd.1 hc2

/-- A raw sample arriving within the debounce window is rejected with the
state left untouched, whatever its value. -/
lemma debounceStep_reject {s : DebState} {raw : List Nat} {now : Int}
    (hle : now - s.last_change ≤ DEBOUNCE_MS) :
    debounceStep s raw now = (s, none) := by
  unfold debounceStep
  rw [if_neg]
  rintro ⟨-, hgt⟩
  exact absurd hgt (not_lt.2 hle)

/-! ## Claim theorems -/

/-- Claim C1: the claim states `key_press` lays the report out as
`[report_id=1][modifier][reserved=0][k0..k5]`, with the chord `(0, 2)`
(modifier `0x02`, keycode `0x04`) producing `[1,0x02,0,0x04,0,0,0,0]`.
The code packs `"<BB6B"` — report id, modifier, then the six keycode
slots immediately, with no reserved byte — so the actual bytes are
`[1,0x02,0x04,0,0,0,0,0]`, contradicting both the claim and the reserved
byte the firmware's own HID report map declares after the modifier. -/
theorem C1_report_has_no_reserved_byte :
    combo_get COMBO_MAP [0, 2] = some (0x02, [0x04]) ∧
    key_press 0x02 [0x04] =
      some [0x01, 0x02, 0x04, 0x00, 0x00, 0x00, 0x00, 0x00] ∧
    key_press 0x02 [0x04] ≠
      some [0x01, 0x02, 0x00, 0x04, 0x00, 0x00, 0x00, 0x00] := by
  decide

/-- Claim C6: the claim states the static HID-information record is
exactly 4 bytes `[bcdHID:u16-LE][countryCode:u8][flags:u8]`. The code
packs `"<HHBB"` — an extra all-zero u16 field — so the record written to
the HID Information characteristic is 6 bytes, not 4. -/
theorem C6_hid_info_is_six_bytes :
    HID_INFO = [0x11, 0x01, 0x00, 0x00, 0x01, 0x01] ∧
    HID_INFO.length = 6 ∧ ¬ HID_INFO.length = 4 := by
  decide

/-- Claim C8: with an empty connection set, `send_report` completes
without error and emits no notification; it reads the set and touches no
other state, so an empty set makes it a pure no-op. -/
theorem C8_send_report_empty_is_noop (report : List Nat) :
    send_report [] report = [] :=
  rfl

/-- Claim C2: a raw sample differing from the stable chord but arriving
within the debounce window (elapsed ≤ 25 ms since the last accepted
change) emits no event and leaves the debounce state — including the
`last_change` timestamp — entirely unchanged; an event is emitted only
when `raw ≠ stable` and elapsed is strictly greater than the window, and
then the state becomes `(raw, now)`; and a whole run of sub-window
mismatching samples leaves the state unchanged and emits nothing. -/
theorem C2_rejected_samples_leave_state (s : DebState) :
    (∀ raw now, raw ≠ s.last_state → now - s.last_change ≤ DEBOUNCE_MS →
      debounceStep s raw now = (s, none)) ∧
    (∀ raw now s1 ev, debounceStep s raw now = (s1, some ev) →
      raw ≠ s.last_state ∧ now - s.last_change > DEBOUNCE_MS ∧
      s1 = ⟨raw, now⟩ ∧ ev = raw) ∧
    (∀ samples : List (List Nat × Int),
      (∀ p ∈ samples, p.1 ≠ s.last_state ∧ p.2 - s.last_change ≤ DEBOUNCE_MS) →
      runDebounce s samples = (s, [])) := by
  refine ⟨?_, ?_, ?_⟩
  · intro raw now _ hle
    exact debounceStep_reject hle
  · intro raw now s1 ev h
    unfold debounceStep at h
    split at h
    · rename_i hc
      obtain ⟨h1, h2⟩ := Prod.mk.injEq .. ▸ h
      exact ⟨hc.1, hc.2, h1.symm, (Option.some.injEq .. ▸ h2).symm⟩
    · exact absurd (Prod.mk.injEq .. ▸ h).2 (by simp)
  · intro samples
    induction samples with
    | nil => intro _; rfl
    | cons p rest ih =>
      intro hall
      obtain ⟨raw, now⟩ := p
      have hle := (hall (raw, now) (by simp)).2
      have hstep : debounceStep s raw now = (s, none) := debounceStep_reject hle
      simp only [runDebounce, hstep]
      rw [ih (fun q hq => hall q (by simp [hq]))]
      rfl

/-- Witness for C2 at concrete inputs: with stable chord `[0]` accepted
at t = 100, the mismatching sample `[0, 1]` at t = 120 is rejected, and a
run of three sub-window mismatching samples leaves the state unchanged
with no event. -/
theorem C2_rejected_samples_leave_state_witness :
    debounceStep ⟨[0], 100⟩ [0, 1] 120 = (⟨[0], 100⟩, none) ∧
    runDebounce ⟨[0], 100⟩ [([0, 1], 110), ([0, 1], 120), ([1], 125)] =
      (⟨[0], 100⟩, []) :=
  ⟨(C2_rejected_samples_leave_state ⟨[0], 100⟩).1 [0, 1] 120 (by decide)
      (by decide),
   (C2_rejected_samples_leave_state ⟨[0], 100⟩).2.2
      [([0, 1], 110), ([0, 1], 120), ([1], 125)] (by decide)⟩

/-- Claim C3: on an accepted transition to a chord that `COMBO_MAP`
maps, the tick hands the transport exactly the release-all report
followed by the new chord's report, in that order, both within the same
tick — so the transport observes release-all strictly before the new
press, and the event is fully processed before the next poll tick. -/
theorem C3_release_all_precedes_key_press (s : DebState) (raw : List Nat)
    (now : Int) (modifier : Nat) (keycodes : List Nat)
    (hne : raw ≠ s.last_state) (hwin : now - s.last_change > DEBOUNCE_MS)
    (hmap : combo_get COMBO_MAP raw = some (modifier, keycodes)) :
    ∃ rep, key_press modifier keycodes = some rep ∧
      tick COMBO_MAP s raw now = some (⟨raw, now⟩, [releaseAllReport, rep]) := by
  have hmem := combo_get_mem hmap
  have hlen : keycodes.length = 1 := comboEntryLen _ hmem
  have hkp := @key_press_eq_of_le modifier keycodes (by omega)
  refine ⟨_, hkp, ?_⟩
  have hstep : debounceStep s raw now = (⟨raw, now⟩, some raw) := by
    unfold debounceStep
    rw [if_pos ⟨hne, hwin⟩]
  unfold tick
  rw [hstep]
  simp only [release_all_eq, hmap, hkp]

/-- Witness for C3: from the initial state, the sample `[0, 2]` at
t = 100 is accepted and produces the release-all report followed by the
Shift+A report. -/
theorem C3_release_all_precedes_key_press_witness :
    ∃ rep, key_press 0x02 [0x04] = some rep ∧
      tick COMBO_MAP ⟨[], 0⟩ [0, 2] 100 =
        some (⟨[0, 2], 100⟩, [releaseAllReport, rep]) :=
  C3_release_all_precedes_key_press ⟨[], 0⟩ [0, 2] 100 0x02 [0x04]
    (by decide) (by decide) (by decide)

/-- Claim C4: on an accepted transition to a chord with no `COMBO_MAP`
entry, the tick sends exactly one report — the release-all — and no
follow-up key report; the unmapped chord is handled without error. -/
theorem C4_unmapped_chord_release_only (s : DebState) (raw : List Nat)
    (now : Int)
    (hne : raw ≠ s.last_state) (hwin : now - s.last_change > DEBOUNCE_MS)
    (hunmapped : combo_get COMBO_MAP raw = none) :
    tick COMBO_MAP s raw now = some (⟨raw, now⟩, [releaseAllReport]) := by
  have hstep : debounceStep s raw now = (⟨raw, now⟩, some raw) := by
    unfold debounceStep
    rw [if_pos ⟨hne, hwin⟩]
  unfold tick
  rw [hstep]
  simp only [release_all_eq, hunmapped]

/-- Witness for C4: the unmapped chord `[3, 4]` accepted from the
initial state sends only the release-all report. -/
theorem C4_unmapped_chord_release_only_witness :
    tick COMBO_MAP ⟨[], 0⟩ [3, 4] 100 =
      some (⟨[3, 4], 100⟩, [releaseAllReport]) :=
  C4_unmapped_chord_release_only ⟨[], 0⟩ [3, 4] 100 (by decide) (by decide)
    (by decide)

/-- Claim C5: for byte-valued modifier and at most six byte-valued
keycodes, `key_press` produces 8 bytes that decode back to exactly
`(report_id = 1, modifier, keycodes padded to six with zeros)`. -/
theorem C5_encode_decode_roundtrip (modifier : Nat) (ks : List Nat)
    (hm : modifier < 256) (hlen : ks.length ≤ 6) (hks : ∀ k ∈ ks, k < 256) :
    ∃ bytes, key_press modifier ks = some bytes ∧ bytes.length = 8 ∧
      decodeReport bytes =
        some (1, modifier, ks ++ List.replicate (6 - ks.length) 0) := by
  have hkp := @key_press_eq_of_le modifier ks hlen
  have hplen : (ks ++ List.replicate (6 - ks.length) 0x00).length = 6 := by
    simp only [List.length_append, List.length_replicate]
    omega
  have hid : (ks ++ List.replicate (6 - ks.length) 0x00).map
      (fun b => b % 256) = ks ++ List.replicate (6 - ks.length) 0x00 := by
    conv_rhs => rw [← List.map_id (ks ++ List.replicate (6 - ks.length) 0x00)]
    apply List.map_congr_left
    intro x hx
    rcases List.mem_append.1 hx with hx | hx
    · exact Nat.mod_eq_of_lt (hks x hx)
    · rw [List.eq_of_mem_replicate hx]
      rfl
  refine ⟨_, hkp, ?_, ?_⟩
  · simp only [List.length_cons, List.length_map, hplen]
  · rw [hid]
    simp [decodeReport, hplen, Nat.mod_eq_of_lt hm]

/-- Witness for C5 at modifier `0x02` and single keycode `0x04`. -/
theorem C5_encode_decode_roundtrip_witness :
    ∃ bytes, key_press 0x02 [0x04] = some bytes ∧ bytes.length = 8 ∧
      decodeReport bytes =
        some (1, 0x02, [0x04] ++ List.replicate (6 - [0x04].length) 0) :=
  C5_encode_decode_roundtrip 0x02 [0x04] (by decide) (by decide) (by decide)

/-- A hypothetical configuration with a seven-keycode entry for the
chord `[3, 4]`, used to probe what the firmware would do with an
over-long combo: the source has no configuration-load-time validation
at all, so such a map reaches the poll loop untouched. -/
def badComboMap : List (List Nat × Nat × List Nat) :=
  COMBO_MAP ++ [([3, 4], (0x00, [0x04, 0x05, 0x06, 0x07, 0x08, 0x09, 0x0A]))]

/-- Claim C7 counterexample: the claim states a more-than-six-keycode
combo is caught at configuration-load time and can never be reached
during chord processing. The code performs no load-time check: with a
seven-keycode entry in the map, the poll-loop tick itself reaches the
`struct.pack` failure while processing the chord (modelled as `none`),
i.e. the failure occurs at runtime per chord, not at load time. -/
theorem C7_overflow_reaches_poll_loop :
    tick badComboMap ⟨[], 0⟩ [3, 4] 100 = none := by
  decide

/-- Claim C7 amended: `key_press` does fail when more than six keycodes
are supplied, but there is no configuration-load-time check; the failure
is unreachable from the poll loop only because every entry of the
shipped `COMBO_MAP` carries exactly one keycode, so a tick over the real
configuration never hits the failing branch. -/
theorem C7_overflow_unreachable_via_config :
    (∀ modifier ks, 6 < ks.length → key_press modifier ks = none) ∧
    (∀ e ∈ COMBO_MAP, e.2.2.length = 1) ∧
    (∀ s raw now, tick COMBO_MAP s raw now ≠ none) := by
  refine ⟨?_, comboEntryLen, ?_⟩
  · intro modifier ks h
    unfold key_press packBB6B
    rw [if_neg]
    simp only [List.length_append, List.length_replicate]
    omega
  · intro s raw now
    unfold tick
    rcases hds : debounceStep s raw now with ⟨s1, ev⟩
    cases ev with
    | none => simp
    | some chord =>
      rcases hcg : combo_get COMBO_MAP chord with _ | ⟨modifier, ks⟩
      · simp [release_all_eq, hcg]
      · have hmem := combo_get_mem hcg
        have hlen : ks.length = 1 := comboEntryLen _ hmem
        have hkp := @key_press_eq_of_le modifier ks (by omega)
        simp [release_all_eq, hcg, hkp]

/-- Witness for the amended C7: a seven-keycode `key_press` fails, while
a tick over the shipped configuration (here the accepted unmapped chord
`[3, 4]`) never does. -/
theorem C7_overflow_unreachable_via_config_witness :
    key_press 0x00 [0x04, 0x05, 0x06, 0x07, 0x08, 0x09, 0x0A] = none ∧
    tick COMBO_MAP ⟨[], 0⟩ [3, 4] 100 ≠ none :=
  ⟨C7_overflow_unreachable_via_config.1 0x00
      [0x04, 0x05, 0x06, 0x07, 0x08, 0x09, 0x0A] (by decide),
   C7_overflow_unreachable_via_config.2.2 ⟨[], 0⟩ [3, 4] 100⟩

/-- Claim C9: the connection set has mathematical-set semantics — a
duplicate connect event leaves it unchanged, a disconnect for an absent
peer leaves it unchanged (without error) while still re-advertising,
membership stays duplicate-free across events, and `send_report`
notifies each currently-connected peer exactly once per report. -/
theorem C9_connection_set_semantics :
    (∀ (conns : List Nat) (c : Nat), c ∈ conns →
      irq conns (.central_connect c) = (conns, false)) ∧
    (∀ (conns : List Nat) (c : Nat), c ∉ conns →
      irq conns (.central_disconnect c) = (conns, true)) ∧
    (∀ (conns : List Nat) (ev : IrqEvent), conns.Nodup →
      ((irq conns ev).1).Nodup) ∧
    (∀ (conns : List Nat), conns.Nodup → ∀ c ∈ conns, ∀ report,
      countOccurrences (send_report conns report) (c, report) = 1) := by
  refine ⟨?_, ?_, ?_, ?_⟩
  · intro conns c h
    simp [irq, conn_add, h]
  · intro conns c h
    simp [irq, conn_discard, List.erase_of_not_mem h]
  · intro conns ev hnd
    cases ev with
    | central_connect c =>
      by_cases h : c ∈ conns
      · simpa [irq, conn_add, h] using hnd
      · simp [irq, conn_add, h, List.nodup_append, hnd, List.disjoint_singleton]
    | central_disconnect c =>
      simpa [irq, conn_discard] using hnd.erase c
  · intro conns hnd c hc report
    exact send_report_count_one report c conns hnd hc

/-- Witness for C9 with the connection set `[7, 9]`: a duplicate connect
of 7 and a disconnect of the absent 3 both leave it unchanged, and a
report is notified exactly once to peer 7. -/
theorem C9_connection_set_semantics_witness :
    irq [7, 9] (.central_connect 7) = ([7, 9], false) ∧
    irq [7, 9] (.central_disconnect 3) = ([7, 9], true) ∧
    countOccurrences (send_report [7, 9] releaseAllReport)
      (7, releaseAllReport) = 1 :=
  ⟨C9_connection_set_semantics.1 [7, 9] 7 (by decide),
   C9_connection_set_semantics.2.1 [7, 9] 3 (by decide),
   C9_connection_set_semantics.2.2.2 [7, 9] (by decide) 7 (by decide)
     releaseAllReport⟩

/-- Claim C10: every chord `combo_get` resolves against the configured
`COMBO_MAP` carries exactly one keycode, so the padding count
`6 - len(keycodes)` is non-negative and `key_press` cannot hit its
more-than-six-keycodes failure from the poll loop. -/
theorem C10_mapped_chords_have_one_keycode :
    ∀ chord modifier ks, combo_get COMBO_MAP chord = some (modifier, ks) →
      ks.length = 1 ∧ (0 : Int) ≤ 6 - (ks.length : Int) ∧
      key_press modifier ks ≠ none := by
  intro chord modifier ks h
  have hmem := combo_get_mem h
  have hlen : ks.length = 1 := comboEntryLen _ hmem
  refine ⟨hlen, by omega, ?_⟩
  rw [key_press_eq_of_le (by omega)]
  simp

/-- Witness for C10 at the mapped chord `[0, 2]`. -/
theorem C10_mapped_chords_have_one_keycode_witness :
    ([0x04] : List Nat).length = 1 ∧
    (0 : Int) ≤ 6 - ((([0x04] : List Nat).length : Nat) : Int) ∧
    key_press 0x02 [0x04] ≠ none :=
  C10_mapped_chords_have_one_keycode [0, 2] 0x02 [0x04] (by decide)

end Chordy
